import Mathlib

/-!
Verification of the ezbp template-resolution engine (`boilerplate.go`).

Text is modelled as `List Char` (Go strings at rune granularity; every slice
taken by the code falls on a token boundary, so rune indexing agrees with
Go's byte indexing on the scanned spans).  The store `map[string]*Boilerplate`
is an association list keyed by name.  The Interaction Provider (`UI`) is a
scripted oracle `Nat → UIRes` giving the reply to the n-th provider call, and
every engine step additionally reports the trace of provider requests it made.
The Go `for` loop in `Expand` has no bound, so it is embedded with explicit
fuel: a `none` result means the loop is still running after `fuel` iterations.
-/

namespace Ezbp

/-- Character class `[a-zA-Z0-9_]` of the template-reference alternative of
`variableRe` (Go regexp classes here are ASCII, as are Lean's
`Char.isAlpha`/`Char.isDigit`). -/
def isWordChar (c : Char) : Bool := c.isAlpha || c.isDigit || c = '_'

/-- Length of the maximal (greedy) prefix run of word characters,
i.e. what `[a-zA-Z0-9_]+` consumes. -/
def wordRun : List Char → Nat
  | [] => 0
  | c :: t => if isWordChar c then wordRun t + 1 else 0

/-- Length of the maximal (greedy) prefix run of non-close-brace characters,
i.e. what the class excluding the close brace consumes in the prompt
alternative of `variableRe`. -/
def nonBraceRun : List Char → Nat
  | [] => 0
  | c :: t => if c = '}' then 0 else nonBraceRun t + 1

/-- Whether the list starts with two copies of the closing delimiter
character `close`. -/
def startsClose (close : Char) : List Char → Bool
  | c1 :: c2 :: _ => c1 = close && c2 = close
  | _ => false

/-- Match of the first alternative of `variableRe` (a template-reference
token `[[ident]]`) at the head of `s`; returns the length of the matched
span.  The identifier class excludes the closing bracket, so the greedy run
followed by the delimiter check is exactly the regex semantics. -/
def matchBracketAt (s : List Char) : Option Nat :=
  match s with
  | '[' :: '[' :: rest =>
      let k := wordRun rest
      if 0 < k ∧ startsClose ']' (rest.drop k) then some (k + 4) else none
  | _ => none

/-- Match of the second alternative of `variableRe` (a prompt token) at the
head of `s`; returns the length of the matched span.  The inner class
excludes the closing brace, so the greedy run followed by the delimiter
check is exactly the regex semantics. -/
def matchBraceAt (s : List Char) : Option Nat :=
  match s with
  | '{' :: '{' :: rest =>
      let k := nonBraceRun rest
      if 0 < k ∧ startsClose '}' (rest.drop k) then some (k + 4) else none
  | _ => none

/-- One position of the scan: try the template-reference alternative first,
then the prompt alternative — the alternation order of `variableRe`. -/
def matchAt (s : List Char) : Option Nat :=
  match matchBracketAt s with
  | some k => some k
  | none => matchBraceAt s

/-- Leftmost scan: match at each position in turn, advancing one character
on failure.  `i` is the absolute offset of the head of `s` in the scanned
string. -/
def findFrom : List Char → Nat → Option (Nat × Nat)
  | [], _ => none
  | s@(_ :: t), i =>
      match matchAt s with
      | some k => some (i, i + k)
      | none => findFrom t (i + 1)

/-- `variableRe.FindStringIndex`: the span `(start, end)` of the leftmost
match of either token grammar, or `none`. -/
def findStringIndex (s : List Char) : Option (Nat × Nat) := findFrom s 0

/-- `strings.Split(l, "|")`: pipe-separated segments, in order, empty
segments preserved. -/
def splitOnPipe (l : List Char) : List (List Char) :=
  match l with
  | [] => [[]]
  | c :: t =>
      let r := splitOnPipe t
      if c = '|' then [] :: r else (c :: r.headI) :: r.tail

/-- A single boilerplate template (`Boilerplate` in `boilerplate.go`). -/
structure Boilerplate where
  Name : List Char
  Value : List Char
  Count : Int
deriving DecidableEq

/-- The in-memory collection `map[string]*Boilerplate`, keyed by name. -/
abbrev Store := List (List Char × Boilerplate)

/-- Go map lookup on the association list. -/
def lookup : Store → List Char → Option Boilerplate
  | [], _ => none
  | (k, b) :: t, name => if k = name then some b else lookup t name

/-- Engine-level errors, mirroring the error values produced or propagated
by `Expand`, `expandFirst` and `incrementBoilerplateCount`. -/
inductive Err where
  | unknownBoilerplate (name : List Char)
  | unknownReferenced (name : List Char)
  | uiError (msg : List Char)
  | dbError
deriving DecidableEq

/-- One reply of the Interaction Provider: a Go `(string, error)` pair. -/
inductive UIRes where
  | ok (text : List Char)
  | err (msg : List Char)
deriving DecidableEq

/-- One Interaction Provider request, as recorded in the trace:
`ui.Select(prompt, options)` or `ui.Prompt(label)`. -/
inductive Ev where
  | selectEv (prompt : List Char) (options : List (List Char))
  | promptEv (label : List Char)
deriving DecidableEq

/-- Result of one engine step: a Go `(string, error)` pair. -/
inductive Res where
  | ok (text : List Char)
  | err (e : Err)
deriving DecidableEq

/-- The persistent store, modelled from the spec's external store interface:
`incrementUsage(name) -> success/failure` over persisted usage counts.  The
SQLite implementation in the repository is behind the `Database` interface;
only its success-or-failure outcome is visible to the engine, so a failure
flag stands for a failing write (a failed write leaves the persisted counts
unchanged). -/
structure Database where
  counts : List (List Char × Int)
  incFails : Bool
deriving DecidableEq

/-- Bump the persisted count of `name` (successful `IncBoilerplateCount`). -/
def bumpDbCount : List (List Char × Int) → List Char → List (List Char × Int)
  | [], _ => []
  | (k, c) :: t, name =>
      if k = name then (k, c + 1) :: t else (k, c) :: bumpDbCount t name

/-- `db.IncBoilerplateCount(name)`: fails (state unchanged) or succeeds
(persisted count bumped). -/
def dbIncCount (db : Database) (name : List Char) : Option Err × Database :=
  if db.incFails then (some Err.dbError, db)
  else (none, { db with counts := bumpDbCount db.counts name })

/-- `BoilerplateManager` (config and UI selection omitted: the engine never
reads them). -/
structure BoilerplateManager where
  db : Database
  boilerplates : Store
deriving DecidableEq

/-- `bm.boilerplates[name].Count++`: bump the in-memory count of `name`. -/
def bumpCount : Store → List Char → Store
  | [], _ => []
  | (k, b) :: t, name =>
      if k = name then (k, { b with Count := b.Count + 1 }) :: t
      else (k, b) :: bumpCount t name

/-- `incrementBoilerplateCount`: check membership, bump the in-memory
counter, then attempt the database write, propagating its error without
rolling the in-memory bump back. -/
def incrementBoilerplateCount (bm : BoilerplateManager) (name : List Char) :
    Option Err × BoilerplateManager :=
  match lookup bm.boilerplates name with
  | none => (some (Err.unknownBoilerplate name), bm)
  | some _ =>
      let bm1 : BoilerplateManager :=
        { bm with boilerplates := bumpCount bm.boilerplates name }
      let r := dbIncCount bm1.db name
      (r.1, { bm1 with db := r.2 })

/-- Outcome of `expandFirst`: the `(string, error)` result, the updated
provider-call counter, and the trace of provider requests made. -/
structure StepOut where
  result : Res
  calls : Nat
  events : List Ev
deriving DecidableEq

/-- `expandFirst`: find the first token with `variableRe`, classify it by
its first character, compute the replacement (store lookup — note: keyed by
the full `outerValue`, brackets included — or provider call), and substitute
exactly the matched span. -/
def expandFirst (store : Store) (ui : Nat → UIRes) (n : Nat)
    (value : List Char) : StepOut :=
  match findStringIndex value with
  | none => ⟨Res.ok value, n, []⟩
  | some (start, stop) =>
      let outerValue := (value.drop start).take (stop - start)
      let innerValue := (value.drop (start + 2)).take (stop - start - 4)
      if value.get? start = some '[' then
        match lookup store outerValue with
        | none => ⟨Res.err (Err.unknownReferenced innerValue), n, []⟩
        | some bp =>
            ⟨Res.ok (value.take start ++ bp.Value ++ value.drop stop), n, []⟩
      else
        if innerValue.contains '|' then
          let elements := splitOnPipe innerValue
          match ui n with
          | UIRes.err e =>
              ⟨Res.err (Err.uiError e), n + 1,
                [Ev.selectEv elements.headI elements.tail]⟩
          | UIRes.ok choice =>
              ⟨Res.ok (value.take start ++ choice ++ value.drop stop), n + 1,
                [Ev.selectEv elements.headI elements.tail]⟩
        else
          match ui n with
          | UIRes.err e =>
              ⟨Res.err (Err.uiError e), n + 1, [Ev.promptEv innerValue]⟩
          | UIRes.ok input =>
              ⟨Res.ok (value.take start ++ input ++ value.drop stop), n + 1,
                [Ev.promptEv innerValue]⟩

/-- Outcome of the resolution loop: `none` means the loop is still running
after the given fuel. -/
structure LoopOut where
  result : Option Res
  calls : Nat
  events : List Ev
deriving DecidableEq

/-- The unbounded `for` loop of `Expand`, with explicit fuel: call
`expandFirst`, abort on error, stop when the text is byte-for-byte
unchanged, otherwise continue on the substituted text. -/
def expandLoop (store : Store) (ui : Nat → UIRes) :
    Nat → Nat → List Char → LoopOut
  | 0, n, _ => ⟨none, n, []⟩
  | fuel + 1, n, before =>
      let step := expandFirst store ui n before
      match step.result with
      | Res.err e => ⟨some (Res.err e), step.calls, step.events⟩
      | Res.ok after =>
          if before = after then ⟨some (Res.ok after), step.calls, step.events⟩
          else
            let rest := expandLoop store ui fuel step.calls after
            ⟨rest.result, rest.calls, step.events ++ rest.events⟩

/-- Outcome of `Expand`: the `(string, error)` result (`none` while the loop
is still running), the manager state after the call, and the provider call
count and trace. -/
structure ExpandOut where
  result : Option Res
  bm : BoilerplateManager
  calls : Nat
  events : List Ev
deriving DecidableEq

/-- `Expand`: look the template up by name, run the resolution loop on its
raw body, and on success increment the usage count, swallowing any increment
error (warn-only). -/
def Expand (bm : BoilerplateManager) (ui : Nat → UIRes) (fuel : Nat)
    (name : List Char) : ExpandOut :=
  match lookup bm.boilerplates name with
  | none => ⟨some (Res.err (Err.unknownBoilerplate name)), bm, 0, []⟩
  | some bp =>
      let loop := expandLoop bm.boilerplates ui fuel 0 bp.Value
      match loop.result with
      | none => ⟨none, bm, loop.calls, loop.events⟩
      | some (Res.err e) => ⟨some (Res.err e), bm, loop.calls, loop.events⟩
      | some (Res.ok after) =>
          ⟨some (Res.ok after), (incrementBoilerplateCount bm name).2,
            loop.calls, loop.events⟩

/-- Interaction Provider script that answers every call with an error. -/
def uiRefuse : Nat → UIRes := fun _ => UIRes.err []

/-- The in-memory collection used by `TestExpand` in `boilerplate_test.go`:
plain names as keys, bodies referencing each other with `[[name]]` tokens. -/
def testStore : Store :=
  [ (("foobar".data), ⟨("foobar".data), ("the text of foobar".data), 0⟩),
    (("barfoo".data), ⟨("barfoo".data), ("before [[foobar]] after".data), 0⟩),
    (("fizzbuzz".data), ⟨("fizzbuzz".data), ("john [[barfoo]] doe".data), 0⟩) ]

/-- A manager over `testStore` with a healthy database. -/
def testBM : BoilerplateManager :=
  ⟨⟨[(("foobar".data), 0), (("barfoo".data), 0), (("fizzbuzz".data), 0)],
    false⟩, testStore⟩

/-- Two plain-named templates referencing each other, the spec's cyclic
example. -/
def cycStore : Store :=
  [ (("A".data), ⟨("A".data), ("x[[B]]y".data), 0⟩),
    (("B".data), ⟨("B".data), ("z[[A]]w".data), 0⟩) ]

/-- A manager over `cycStore`. -/
def cycBM : BoilerplateManager := ⟨⟨[], false⟩, cycStore⟩

/-- A store whose keys are the literal token spellings, the only shape under
which the `outerValue` lookup of `expandFirst` resolves references. -/
def tokCycStore : Store :=
  [ (("[[A]]".data), ⟨("[[A]]".data), ("[[B]]".data), 0⟩),
    (("[[B]]".data), ⟨("[[B]]".data), ("[[A]]".data), 0⟩) ]

/-- A manager whose database write always fails, over a two-template store
whose `T` body has no tokens. -/
def failBM : BoilerplateManager :=
  ⟨⟨[(("T".data), 0), (("U".data), 0)], true⟩,
    [(("T".data), ⟨("T".data), ("plain text".data), 0⟩),
     (("U".data), ⟨("U".data), ("other".data), 5⟩)]⟩

/-- The body of the spec's choice-prompt example. -/
def pickBody : List Char := ("\x7b\x7bPick|red|green|blue\x7d\x7d".data)

/-- The body of the spec's free-form-prompt example. -/
def helloBody : List Char := ("Hello \x7b\x7bname\x7d\x7d!".data)

/-- A provider script that always selects `green`. -/
def uiGreen : Nat → UIRes := fun _ => UIRes.ok ("green".data)

/-- A provider script that always replies `Ada`. -/
def uiAda : Nat → UIRes := fun _ => UIRes.ok ("Ada".data)

/-- A manager with the spec's repeated-prompt body `{{x}} and {{x}}`. -/
def promptTwiceBM : BoilerplateManager :=
  ⟨⟨[(("T".data), 0)], false⟩,
    [(("T".data), ⟨("T".data),
      ("\x7b\x7bx\x7d\x7d and \x7b\x7bx\x7d\x7d".data), 0⟩)]⟩

/-- A provider script that replies `1` to the first call and `2` to every
later call. -/
def uiOneTwo : Nat → UIRes :=
  fun n => if n = 0 then UIRes.ok ("1".data) else UIRes.ok ("2".data)

/-- A store holding the prompt-only template `T` and a template keyed by
the literal token text `[[y]]` (the only key shape the `outerValue` lookup
can hit). -/
def replayStore : Store :=
  [ (("T".data), ⟨("T".data), ("\x7b\x7bq\x7d\x7d".data), 0⟩),
    (("[[y]]".data), ⟨("[[y]]".data), ("YBODY".data), 0⟩) ]

/-- A manager over `replayStore`. -/
def replayBM : BoilerplateManager := ⟨⟨[(("T".data), 0)], false⟩, replayStore⟩

/-- The manager state after a successful expansion of `T` on `replayBM`. -/
def replayBMAfter : BoilerplateManager :=
  ⟨⟨[(("T".data), 1)], false⟩,
    [ (("T".data), ⟨("T".data), ("\x7b\x7bq\x7d\x7d".data), 1⟩),
      (("[[y]]".data), ⟨("[[y]]".data), ("YBODY".data), 0⟩) ]⟩

/-- A provider script whose first reply is itself a prompt token. -/
def uiTokenReply : Nat → UIRes :=
  fun n => if n = 0 then UIRes.ok ("\x7b\x7br\x7d\x7d".data)
           else UIRes.ok ("Z".data)

/-- A provider script whose reply is a template-reference token. -/
def uiRefReply : Nat → UIRes := fun _ => UIRes.ok ("[[y]]".data)

/-- The resolution loop genuinely has no cycle protection: on a store whose
mutually-referencing templates are keyed so that the lookups resolve, the
loop is still running after any amount of fuel, making no provider calls. -/
theorem expandLoop_resolving_cycle_diverges (ui : Nat → UIRes) :
    ∀ fuel n,
      expandLoop tokCycStore ui fuel n ("[[A]]".data) = ⟨none, n, []⟩ ∧
      expandLoop tokCycStore ui fuel n ("[[B]]".data) = ⟨none, n, []⟩ := by
  intro fuel
  induction fuel with
  | zero => intro n; exact ⟨rfl, rfl⟩
  | succ f ih =>
      intro n
      have hA : expandLoop tokCycStore ui (f + 1) n ("[[A]]".data) =
          ⟨(expandLoop tokCycStore ui f n ("[[B]]".data)).result,
           (expandLoop tokCycStore ui f n ("[[B]]".data)).calls,
           [] ++ (expandLoop tokCycStore ui f n ("[[B]]".data)).events⟩ := rfl
      have hB : expandLoop tokCycStore ui (f + 1) n ("[[B]]".data) =
          ⟨(expandLoop tokCycStore ui f n ("[[A]]".data)).result,
           (expandLoop tokCycStore ui f n ("[[A]]".data)).calls,
           [] ++ (expandLoop tokCycStore ui f n ("[[A]]".data)).events⟩ := rfl
      refine ⟨?_, ?_⟩
      · rw [hA, (ih n).2]
        rfl
      · rw [hB, (ih n).1]
        rfl

/-- Claim C1: evaluation of the code at the failing family of inputs from
`TestExpand`.  The store keys templates by plain name, but `expandFirst`
looks the replacement up under the full token `outerValue` — brackets
included — so expanding `barfoo` (body `before [[foobar]] after`) aborts
with a referenced-template-not-found error instead of substituting
`foobar`'s raw body as the claim, the test, the function's own doc comment
and the README require. -/
theorem expandFirst_outer_token_lookup_fails :
    Expand testBM uiRefuse 1 ("barfoo".data) =
      ⟨some (Res.err (Err.unknownReferenced ("foobar".data))), testBM, 0, []⟩
      ∧
    lookup testStore ("foobar".data) =
      some ⟨("foobar".data), ("the text of foobar".data), 0⟩ := by
  exact ⟨by decide, by decide⟩

/-- Claim C3: evaluation of the code on the spec's cyclic pair.  Because
reference lookups use the bracketed token as the store key, a cycle between
the plain-named templates `A` and `B` does not loop forever: the very first
iteration fails its lookup and `Expand` terminates with an error. -/
theorem expand_plain_cycle_aborts (fuel : Nat) (h : 1 ≤ fuel)
    (ui : Nat → UIRes) :
    Expand cycBM ui fuel ("A".data) =
      ⟨some (Res.err (Err.unknownReferenced ("B".data))), cycBM, 0, []⟩ := by
  cases fuel with
  | zero => exact absurd h (by decide)
  | succ f => rfl

/-- Claim C3 witness: the evaluation at fuel 1. -/
theorem expand_plain_cycle_aborts_witness :
    1 ≤ 1 ∧
    Expand cycBM uiRefuse 1 ("A".data) =
      ⟨some (Res.err (Err.unknownReferenced ("B".data))), cycBM, 0, []⟩ :=
  ⟨by decide, expand_plain_cycle_aborts 1 (by decide) uiRefuse⟩

/-- A scan that finds no token returns the input unchanged with no provider
interaction: the no-variable branch of `expandFirst`. -/
theorem expandFirst_none (store : Store) (ui : Nat → UIRes) (n : Nat)
    (value : List Char) (h : findStringIndex value = none) :
    expandFirst store ui n value = ⟨Res.ok value, n, []⟩ := by
  unfold expandFirst
  rw [h]

/-- An erroring step aborts the whole loop at once, forwarding the step's
counter and trace. -/
theorem expandLoop_step_err (store : Store) (ui : Nat → UIRes)
    (fuel n : Nat) (before : List Char) (e : Err) (m : Nat) (evs : List Ev)
    (h : expandFirst store ui n before = ⟨Res.err e, m, evs⟩) :
    expandLoop store ui (fuel + 1) n before = ⟨some (Res.err e), m, evs⟩ := by
  show (match (expandFirst store ui n before).result with
        | Res.err e => (⟨some (Res.err e),
            (expandFirst store ui n before).calls,
            (expandFirst store ui n before).events⟩ : LoopOut)
        | Res.ok after =>
            if before = after then
              ⟨some (Res.ok after), (expandFirst store ui n before).calls,
                (expandFirst store ui n before).events⟩
            else
              ⟨(expandLoop store ui fuel
                  (expandFirst store ui n before).calls after).result,
                (expandLoop store ui fuel
                  (expandFirst store ui n before).calls after).calls,
                (expandFirst store ui n before).events ++
                  (expandLoop store ui fuel
                    (expandFirst store ui n before).calls after).events⟩) =
      ⟨some (Res.err e), m, evs⟩
  rw [h]

/-- On token-free text the loop stops on its first iteration, returning the
text unchanged: the `before == after` termination condition. -/
theorem expandLoop_fixed (store : Store) (ui : Nat → UIRes)
    (fuel n : Nat) (value : List Char)
    (h : findStringIndex value = none) (hfuel : 1 ≤ fuel) :
    expandLoop store ui fuel n value = ⟨some (Res.ok value), n, []⟩ := by
  cases fuel with
  | zero => exact absurd hfuel (by decide)
  | succ f =>
      show (match (expandFirst store ui n value).result with
            | Res.err e => (⟨some (Res.err e),
                (expandFirst store ui n value).calls,
                (expandFirst store ui n value).events⟩ : LoopOut)
            | Res.ok after =>
                if value = after then
                  ⟨some (Res.ok after), (expandFirst store ui n value).calls,
                    (expandFirst store ui n value).events⟩
                else
                  ⟨(expandLoop store ui f
                      (expandFirst store ui n value).calls after).result,
                    (expandLoop store ui f
                      (expandFirst store ui n value).calls after).calls,
                    (expandFirst store ui n value).events ++
                      (expandLoop store ui f
                        (expandFirst store ui n value).calls after).events⟩) =
          ⟨some (Res.ok value), n, []⟩
      rw [expandFirst_none store ui n value h]
      simp

/-- An unknown top-level name fails immediately, touching nothing. -/
theorem Expand_lookup_none (bm : BoilerplateManager) (ui : Nat → UIRes)
    (fuel : Nat) (name : List Char)
    (h : lookup bm.boilerplates name = none) :
    Expand bm ui fuel name =
      ⟨some (Res.err (Err.unknownBoilerplate name)), bm, 0, []⟩ := by
  unfold Expand
  rw [h]

/-- A loop error is returned verbatim and the manager is untouched. -/
theorem Expand_loop_err (bm : BoilerplateManager) (ui : Nat → UIRes)
    (fuel : Nat) (name : List Char) (bp : Boilerplate) (e : Err)
    (n : Nat) (evs : List Ev)
    (h : lookup bm.boilerplates name = some bp)
    (hloop : expandLoop bm.boilerplates ui fuel 0 bp.Value =
      ⟨some (Res.err e), n, evs⟩) :
    Expand bm ui fuel name = ⟨some (Res.err e), bm, n, evs⟩ := by
  unfold Expand
  rw [h]
  show (match (expandLoop bm.boilerplates ui fuel 0 bp.Value).result with
        | none => (⟨none, bm,
            (expandLoop bm.boilerplates ui fuel 0 bp.Value).calls,
            (expandLoop bm.boilerplates ui fuel 0 bp.Value).events⟩ :
              ExpandOut)
        | some (Res.err e) => ⟨some (Res.err e), bm,
            (expandLoop bm.boilerplates ui fuel 0 bp.Value).calls,
            (expandLoop bm.boilerplates ui fuel 0 bp.Value).events⟩
        | some (Res.ok after) => ⟨some (Res.ok after),
            (incrementBoilerplateCount bm name).2,
            (expandLoop bm.boilerplates ui fuel 0 bp.Value).calls,
            (expandLoop bm.boilerplates ui fuel 0 bp.Value).events⟩) =
      ⟨some (Res.err e), bm, n, evs⟩
  rw [hloop]

/-- A successful loop returns the resolved text and hands the manager to the
usage-count bookkeeping step. -/
theorem Expand_loop_ok (bm : BoilerplateManager) (ui : Nat → UIRes)
    (fuel : Nat) (name : List Char) (bp : Boilerplate) (t : List Char)
    (n : Nat) (evs : List Ev)
    (h : lookup bm.boilerplates name = some bp)
    (hloop : expandLoop bm.boilerplates ui fuel 0 bp.Value =
      ⟨some (Res.ok t), n, evs⟩) :
    Expand bm ui fuel name =
      ⟨some (Res.ok t), (incrementBoilerplateCount bm name).2, n, evs⟩ := by
  unfold Expand
  rw [h]
  show (match (expandLoop bm.boilerplates ui fuel 0 bp.Value).result with
        | none => (⟨none, bm,
            (expandLoop bm.boilerplates ui fuel 0 bp.Value).calls,
            (expandLoop bm.boilerplates ui fuel 0 bp.Value).events⟩ :
              ExpandOut)
        | some (Res.err e) => ⟨some (Res.err e), bm,
            (expandLoop bm.boilerplates ui fuel 0 bp.Value).calls,
            (expandLoop bm.boilerplates ui fuel 0 bp.Value).events⟩
        | some (Res.ok after) => ⟨some (Res.ok after),
            (incrementBoilerplateCount bm name).2,
            (expandLoop bm.boilerplates ui fuel 0 bp.Value).calls,
            (expandLoop bm.boilerplates ui fuel 0 bp.Value).events⟩) =
      ⟨some (Res.ok t), (incrementBoilerplateCount bm name).2, n, evs⟩
  rw [hloop]

/-- Claim C2: an unknown top-level name, a failing mid-expansion step
(missing referenced template or Interaction Provider failure), or any other
error aborts `Expand` with that error and no partial text, and leaves the
manager — in particular every usage count — unchanged: (i) an absent name
fails up front with no interaction; (ii) a failing step aborts the whole
loop at once; (iii) a reference token whose store lookup misses makes the
step fail with the unknown-referenced error; (iv) a provider failure at a
prompt token makes the step fail with that provider error; (v) a loop
error is surfaced verbatim with the manager untouched; (vi) whenever
`Expand` returns an error, the manager it returns is the one it started
from. -/
theorem expand_error_no_side_effects (bm : BoilerplateManager)
    (ui : Nat → UIRes) (fuel : Nat) (name : List Char) :
    (lookup bm.boilerplates name = none →
      Expand bm ui fuel name =
        ⟨some (Res.err (Err.unknownBoilerplate name)), bm, 0, []⟩) ∧
    (∀ f n before e m evs,
      expandFirst bm.boilerplates ui n before = ⟨Res.err e, m, evs⟩ →
      expandLoop bm.boilerplates ui (f + 1) n before =
        ⟨some (Res.err e), m, evs⟩) ∧
    (∀ n value s0 e0, findStringIndex value = some (s0, e0) →
      value.get? s0 = some '[' →
      lookup bm.boilerplates ((value.drop s0).take (e0 - s0)) = none →
      (expandFirst bm.boilerplates ui n value).result =
        Res.err (Err.unknownReferenced
          ((value.drop (s0 + 2)).take (e0 - s0 - 4)))) ∧
    (∀ n value s0 e0 msg, findStringIndex value = some (s0, e0) →
      value.get? s0 = some '{' → ui n = UIRes.err msg →
      (expandFirst bm.boilerplates ui n value).result =
        Res.err (Err.uiError msg)) ∧
    (∀ bp e n evs, lookup bm.boilerplates name = some bp →
      expandLoop bm.boilerplates ui fuel 0 bp.Value =
        ⟨some (Res.err e), n, evs⟩ →
      Expand bm ui fuel name = ⟨some (Res.err e), bm, n, evs⟩) ∧
    (∀ e, (Expand bm ui fuel name).result = some (Res.err e) →
      (Expand bm ui fuel name).bm = bm) := by
  refine ⟨fun h => Expand_lookup_none bm ui fuel name h,
    fun f n before e m evs h => expandLoop_step_err bm.boilerplates ui f n
      before e m evs h,
    ?_, ?_,
    fun bp e n evs h hloop => Expand_loop_err bm ui fuel name bp e n evs h
      hloop,
    fun e => ?_⟩
  · intro n value s0 e0 hf hb hl
    unfold expandFirst
    rw [hf]
    simp only [if_pos hb, hl]
  · intro n value s0 e0 msg hf hb hui
    have hneq : ¬ (value.get? s0 = some '[') := by
      rw [hb]
      decide
    unfold expandFirst
    rw [hf]
    simp only [if_neg hneq]
    by_cases hc : ((value.drop (s0 + 2)).take (e0 - s0 - 4)).contains '|' =
      true
    · simp only [hc, if_pos, hui]
    · rw [Bool.not_eq_true] at hc
      simp only [hc, hui]
      simp
  intro hres
  cases hl : lookup bm.boilerplates name with
  | none => rw [Expand_lookup_none bm ui fuel name hl]
  | some bp =>
      cases hloop : expandLoop bm.boilerplates ui fuel 0 bp.Value with
      | mk r n evs =>
          cases r with
          | none =>
              have : Expand bm ui fuel name = ⟨none, bm, n, evs⟩ := by
                unfold Expand
                rw [hl]
                show (match (expandLoop bm.boilerplates ui fuel 0
                        bp.Value).result with
                      | none => (⟨none, bm,
                          (expandLoop bm.boilerplates ui fuel 0
                            bp.Value).calls,
                          (expandLoop bm.boilerplates ui fuel 0
                            bp.Value).events⟩ : ExpandOut)
                      | some (Res.err e) => ⟨some (Res.err e), bm,
                          (expandLoop bm.boilerplates ui fuel 0
                            bp.Value).calls,
                          (expandLoop bm.boilerplates ui fuel 0
                            bp.Value).events⟩
                      | some (Res.ok after) => ⟨some (Res.ok after),
                          (incrementBoilerplateCount bm name).2,
                          (expandLoop bm.boilerplates ui fuel 0
                            bp.Value).calls,
                          (expandLoop bm.boilerplates ui fuel 0
                            bp.Value).events⟩) = ⟨none, bm, n, evs⟩
                rw [hloop]
              rw [this]
          | some res =>
              cases res with
              | err e2 =>
                  rw [Expand_loop_err bm ui fuel name bp e2 n evs hl hloop]
              | ok t =>
                  rw [Expand_loop_ok bm ui fuel name bp t n evs hl hloop]
                    at hres
                  exact absurd hres (by simp)

/-- Claim C2 witness: expanding a name absent from `testStore` fails with
the template-not-found error and changes nothing. -/
theorem expand_error_no_side_effects_witness :
    Expand testBM uiRefuse 1 ("missing".data) =
      ⟨some (Res.err (Err.unknownBoilerplate ("missing".data))), testBM, 0,
        []⟩ :=
  (expand_error_no_side_effects testBM uiRefuse 1
    ("missing".data)).1 (by decide)

/-- Bumping `name` raises exactly `name`'s looked-up count by one. -/
theorem lookup_bumpCount_self (s : Store) (name : List Char) :
    lookup (bumpCount s name) name =
      (lookup s name).map (fun b => { b with Count := b.Count + 1 }) := by
  induction s with
  | nil => rfl
  | cons p t ih =>
      obtain ⟨k, b⟩ := p
      by_cases hk : k = name
      · simp [bumpCount, lookup, hk]
      · simp [bumpCount, lookup, hk, ih]

/-- Bumping `name` leaves every other looked-up entry unchanged. -/
theorem lookup_bumpCount_other (s : Store) (name m : List Char)
    (hm : m ≠ name) :
    lookup (bumpCount s name) m = lookup s m := by
  induction s with
  | nil => rfl
  | cons p t ih =>
      obtain ⟨k, b⟩ := p
      by_cases hk : k = name
      · subst hk
        have hkm : ¬ k = m := fun h => hm h.symm
        simp [bumpCount, lookup, hkm]
      · simp only [bumpCount, lookup, if_neg hk]
        by_cases hkm : k = m
        · simp [lookup, hkm]
        · simp [lookup, hkm, ih]

/-- When the name is present, the bookkeeping step's resulting in-memory
collection is the bumped one, whatever the database write does. -/
theorem incrementBoilerplateCount_found (bm : BoilerplateManager)
    (name : List Char) (bp : Boilerplate)
    (h : lookup bm.boilerplates name = some bp) :
    (incrementBoilerplateCount bm name).2.boilerplates =
      bumpCount bm.boilerplates name := by
  unfold incrementBoilerplateCount
  rw [h]

/-- Claim C7: when the loop succeeds, `Expand` returns the resolved text
successfully — whatever the usage-count write does, since the manager's
database (including its failure flag) is universally quantified here — and
the only state change is that the top-level template's in-memory count goes
up by exactly one, every other template's count being untouched. -/
theorem expand_success_increments_once (bm : BoilerplateManager)
    (ui : Nat → UIRes) (fuel : Nat) (name : List Char) (bp : Boilerplate)
    (t : List Char) (n : Nat) (evs : List Ev)
    (hl : lookup bm.boilerplates name = some bp)
    (hloop : expandLoop bm.boilerplates ui fuel 0 bp.Value =
      ⟨some (Res.ok t), n, evs⟩) :
    Expand bm ui fuel name =
      ⟨some (Res.ok t), (incrementBoilerplateCount bm name).2, n, evs⟩ ∧
    lookup (Expand bm ui fuel name).bm.boilerplates name =
      some { bp with Count := bp.Count + 1 } ∧
    (∀ m, m ≠ name →
      lookup (Expand bm ui fuel name).bm.boilerplates m =
        lookup bm.boilerplates m) := by
  have hx := Expand_loop_ok bm ui fuel name bp t n evs hl hloop
  refine ⟨hx, ?_, ?_⟩
  · rw [hx]
    show lookup (incrementBoilerplateCount bm name).2.boilerplates name =
      some { bp with Count := bp.Count + 1 }
    rw [incrementBoilerplateCount_found bm name bp hl,
      lookup_bumpCount_self, hl]
    rfl
  · intro m hm
    rw [hx]
    show lookup (incrementBoilerplateCount bm name).2.boilerplates m =
      lookup bm.boilerplates m
    rw [incrementBoilerplateCount_found bm name bp hl,
      lookup_bumpCount_other bm.boilerplates name m hm]

/-- Claim C7 witness: expanding `T` on `failBM` — whose database write
fails — still succeeds, bumps `T`'s in-memory count to 1, and leaves `U`
alone. -/
theorem expand_success_increments_once_witness :
    Expand failBM uiRefuse 1 ("T".data) =
      ⟨some (Res.ok ("plain text".data)),
        (incrementBoilerplateCount failBM ("T".data)).2, 0, []⟩ ∧
    lookup (Expand failBM uiRefuse 1 ("T".data)).bm.boilerplates ("T".data) =
      some ⟨("T".data), ("plain text".data), 1⟩ ∧
    lookup (Expand failBM uiRefuse 1 ("T".data)).bm.boilerplates ("U".data) =
      some ⟨("U".data), ("other".data), 5⟩ := by
  have h := expand_success_increments_once failBM uiRefuse 1 ("T".data)
    (⟨("T".data), ("plain text".data), 0⟩) ("plain text".data) 0 []
    (by decide) (by decide)
  exact ⟨h.1, h.2.1, (h.2.2 ("U".data) (by decide)).trans (by decide)⟩

/-- Claim C8: a template whose body contains no reference token expands to
that body unchanged with zero Interaction Provider calls and an empty
request trace, and one scan-and-substitute step on token-free text returns
identical text — the loop's termination condition. -/
theorem expand_token_free_identity (bm : BoilerplateManager)
    (ui : Nat → UIRes) (fuel : Nat) (name : List Char) (bp : Boilerplate)
    (n : Nat)
    (hl : lookup bm.boilerplates name = some bp)
    (hnone : findStringIndex bp.Value = none)
    (hfuel : 1 ≤ fuel) :
    expandFirst bm.boilerplates ui n bp.Value = ⟨Res.ok bp.Value, n, []⟩ ∧
    (Expand bm ui fuel name).result = some (Res.ok bp.Value) ∧
    (Expand bm ui fuel name).calls = 0 ∧
    (Expand bm ui fuel name).events = [] := by
  have hloop := expandLoop_fixed bm.boilerplates ui fuel 0 bp.Value hnone
    hfuel
  have hx := Expand_loop_ok bm ui fuel name bp bp.Value 0 [] hl hloop
  rw [hx]
  exact ⟨expandFirst_none bm.boilerplates ui n bp.Value hnone, rfl, rfl, rfl⟩

/-- Claim C8 witness: the token-free template `foobar` from `TestExpand`
expands to its own body with no provider interaction. -/
theorem expand_token_free_identity_witness :
    expandFirst testBM.boilerplates uiRefuse 7 ("the text of foobar".data) =
      ⟨Res.ok ("the text of foobar".data), 7, []⟩ ∧
    (Expand testBM uiRefuse 1 ("foobar".data)).result =
      some (Res.ok ("the text of foobar".data)) ∧
    (Expand testBM uiRefuse 1 ("foobar".data)).calls = 0 ∧
    (Expand testBM uiRefuse 1 ("foobar".data)).events = [] :=
  expand_token_free_identity testBM uiRefuse 1 ("foobar".data)
    (⟨("foobar".data), ("the text of foobar".data), 0⟩) 7
    (by decide) (by decide) (by decide)

/-- Claim C10: the bookkeeping step bumps the in-memory counter and then
attempts the database write; when the write fails, the error is returned
but the in-memory bump is not rolled back and the persisted counts are
unchanged, so the in-memory count now exceeds the persisted one by one. -/
theorem increment_failure_keeps_memory_bump (bm : BoilerplateManager)
    (name : List Char) (bp : Boilerplate)
    (hl : lookup bm.boilerplates name = some bp)
    (hfail : bm.db.incFails = true) :
    (incrementBoilerplateCount bm name).1 = some Err.dbError ∧
    (incrementBoilerplateCount bm name).2.db = bm.db ∧
    lookup (incrementBoilerplateCount bm name).2.boilerplates name =
      some { bp with Count := bp.Count + 1 } := by
  refine ⟨?_, ?_, ?_⟩
  · unfold incrementBoilerplateCount
    rw [hl]
    show (dbIncCount bm.db name).1 = some Err.dbError
    unfold dbIncCount
    rw [hfail]
    rfl
  · unfold incrementBoilerplateCount
    rw [hl]
    show (dbIncCount bm.db name).2 = bm.db
    unfold dbIncCount
    rw [hfail]
    rfl
  · rw [incrementBoilerplateCount_found bm name bp hl,
      lookup_bumpCount_self, hl]
    rfl

/-- Claim C10 witness: on `failBM`, bumping `T` errors, leaves the
persisted counts at 0, and raises the in-memory count to 1. -/
theorem increment_failure_keeps_memory_bump_witness :
    (incrementBoilerplateCount failBM ("T".data)).1 = some Err.dbError ∧
    (incrementBoilerplateCount failBM ("T".data)).2.db = failBM.db ∧
    lookup (incrementBoilerplateCount failBM ("T".data)).2.boilerplates
      ("T".data) = some ⟨("T".data), ("plain text".data), 1⟩ :=
  increment_failure_keeps_memory_bump failBM ("T".data)
    (⟨("T".data), ("plain text".data), 0⟩) (by decide) (by decide)

/-- The greedy inner run of a prompt token stops exactly at the first close
brace. -/
theorem nonBraceRun_closed (w : List Char) (l : List Char)
    (hnb : w.all (fun c => c != '}') = true) :
    nonBraceRun (w ++ '}' :: l) = w.length := by
  induction w with
  | nil => rfl
  | cons c t ih =>
      simp only [List.all_cons, Bool.and_eq_true] at hnb
      have hc : ¬ c = '}' := by
        intro h
        rw [h] at hnb
        exact absurd hnb.1 (by decide)
      show (if c = '}' then 0 else nonBraceRun (t ++ '}' :: l) + 1) =
        (c :: t).length
      rw [if_neg hc, ih hnb.2]
      rfl

/-- Claim C4 counterexample: the span `{{a}b}}` has a non-empty inner text
`a}b` that does not contain the closing delimiter `}}`, yet the scanner
recognizes nothing in it (and the scan step leaves it untouched): the
prompt alternative of `variableRe` forbids any single close brace inside,
not just the two-character closing delimiter. -/
theorem braceSpan_single_close_not_recognized :
    ("a\x7db".data) ≠ [] ∧
    (¬ (("\x7d\x7d".data) <:+: ("a\x7db".data))) ∧
    findStringIndex ("\x7b\x7ba\x7db\x7d\x7d".data) = none ∧
    expandFirst testStore uiRefuse 0 ("\x7b\x7ba\x7db\x7d\x7d".data) =
      ⟨Res.ok ("\x7b\x7ba\x7db\x7d\x7d".data), 0, []⟩ := by
  refine ⟨by decide, by decide, by decide, by decide⟩

/-- Claim C4 (amended): every span `{{w}}` whose inner text `w` is
non-empty and contains no close-brace character is matched by the prompt
alternative, the scan starting at that span reports exactly it, and the
inner text the engine extracts is `w` itself — leading and trailing
whitespace preserved, untrimmed. -/
theorem braceSpan_recognized (w rest : List Char) (hw : w ≠ [])
    (hnb : w.all (fun c => c != '}') = true) :
    matchBraceAt ('{' :: '{' :: (w ++ '}' :: '}' :: rest)) =
      some (w.length + 4) ∧
    findStringIndex ('{' :: '{' :: (w ++ '}' :: '}' :: rest)) =
      some (0, w.length + 4) ∧
    ((('{' :: '{' :: (w ++ '}' :: '}' :: rest)).drop (0 + 2)).take
      (w.length + 4 - 0 - 4)) = w := by
  have hrun : nonBraceRun (w ++ '}' :: '}' :: rest) = w.length :=
    nonBraceRun_closed w ('}' :: rest) hnb
  have hdrop : (w ++ '}' :: '}' :: rest).drop w.length = '}' :: '}' :: rest :=
    List.drop_left w ('}' :: '}' :: rest)
  have hmatch : matchBraceAt ('{' :: '{' :: (w ++ '}' :: '}' :: rest)) =
      some (w.length + 4) := by
    show (if 0 < nonBraceRun (w ++ '}' :: '}' :: rest) ∧
            startsClose '}' ((w ++ '}' :: '}' :: rest).drop
              (nonBraceRun (w ++ '}' :: '}' :: rest)))
          then some (nonBraceRun (w ++ '}' :: '}' :: rest) + 4) else none) =
        some (w.length + 4)
    rw [hrun, hdrop]
    rw [if_pos ⟨List.length_pos.mpr hw, rfl⟩]
  refine ⟨hmatch, ?_, ?_⟩
  · show findFrom ('{' :: '{' :: (w ++ '}' :: '}' :: rest)) 0 =
      some (0, w.length + 4)
    have hma : matchAt ('{' :: '{' :: (w ++ '}' :: '}' :: rest)) =
        some (w.length + 4) := by
      unfold matchAt
      rw [show matchBracketAt ('{' :: '{' :: (w ++ '}' :: '}' :: rest)) =
        none from rfl, hmatch]
    show (match matchAt ('{' :: '{' :: (w ++ '}' :: '}' :: rest)) with
          | some k => some (0, 0 + k)
          | none => findFrom ('{' :: (w ++ '}' :: '}' :: rest)) (0 + 1)) =
      some (0, w.length + 4)
    rw [hma]
    simp
  · show ((w ++ '}' :: '}' :: rest).take (w.length + 4 - 0 - 4)) = w
    have h4 : w.length + 4 - 0 - 4 = w.length := by omega
    rw [h4, List.take_left]

/-- Claim C4 witness: the span `{{  x  }}` (inner text with leading and
trailing spaces) is recognized with its whitespace intact. -/
theorem braceSpan_recognized_witness :
    ("  x  ".data) ≠ [] ∧
    matchBraceAt (('{' :: '{' :: (("  x  ".data) ++ '}' :: '}' ::
      ("tail".data)))) = some 9 ∧
    ((('{' :: '{' :: (("  x  ".data) ++ '}' :: '}' :: ("tail".data))).drop
      (0 + 2)).take (9 - 0 - 4)) = ("  x  ".data) := by
  have h := braceSpan_recognized ("  x  ".data) ("tail".data)
    (by decide) (by decide)
  exact ⟨by decide, h.1, h.2.2⟩

/-- A list assembled around a pipe contains a pipe. -/
theorem contains_pipe_append (pre post : List Char) :
    (pre ++ '|' :: post).contains '|' = true := by
  induction pre with
  | nil => rfl
  | cons c p ih => simp [List.contains_cons, ih]

/-- `strings.Split` on the first pipe: with a pipe-free prefix, the first
segment is exactly the text before the first separator and the remaining
segments are the split of the text after it. -/
theorem splitOnPipe_first (pre post : List Char)
    (hp : pre.contains '|' = false) :
    splitOnPipe (pre ++ '|' :: post) = pre :: splitOnPipe post := by
  induction pre with
  | nil => simp [splitOnPipe]
  | cons c p ih =>
      simp only [List.contains_cons, Bool.or_eq_false_iff] at hp
      have hc : ¬ c = '|' := by
        intro h
        rw [h] at hp
        exact absurd hp.1 (by decide)
      show (let r := splitOnPipe (p ++ '|' :: post)
            if c = '|' then [] :: r else (c :: r.headI) :: r.tail) =
        (c :: p) :: splitOnPipe post
      rw [ih hp.2]
      simp [hc]

/-- Claim C5: at a prompt token, if the inner text decomposes as
`pre ++ '|' ++ post` with `pre` pipe-free — i.e. contains a separator —
the engine issues one `Select` request whose label is exactly the text
before the first separator and whose choices are the pipe-split of the
rest (in order, empty segments kept), and the selected choice (or the
provider's error) becomes the outcome; with no separator it issues one
free-form `Prompt` request whose label is the whole inner text, the reply
becoming the replacement unmodified. -/
theorem expandFirst_prompt_protocol (store : Store) (ui : Nat → UIRes)
    (n : Nat) (value : List Char) (s0 e0 : Nat)
    (hf : findStringIndex value = some (s0, e0))
    (hbrace : value.get? s0 = some '{') :
    (∀ pre post,
      (value.drop (s0 + 2)).take (e0 - s0 - 4) = pre ++ '|' :: post →
      pre.contains '|' = false →
      (expandFirst store ui n value).events =
        [Ev.selectEv pre (splitOnPipe post)] ∧
      (expandFirst store ui n value).calls = n + 1 ∧
      (∀ choice, ui n = UIRes.ok choice →
        (expandFirst store ui n value).result =
          Res.ok (value.take s0 ++ choice ++ value.drop e0)) ∧
      (∀ msg, ui n = UIRes.err msg →
        (expandFirst store ui n value).result =
          Res.err (Err.uiError msg))) ∧
    (((value.drop (s0 + 2)).take (e0 - s0 - 4)).contains '|' = false →
      (expandFirst store ui n value).events =
        [Ev.promptEv ((value.drop (s0 + 2)).take (e0 - s0 - 4))] ∧
      (expandFirst store ui n value).calls = n + 1 ∧
      (∀ reply, ui n = UIRes.ok reply →
        (expandFirst store ui n value).result =
          Res.ok (value.take s0 ++ reply ++ value.drop e0)) ∧
      (∀ msg, ui n = UIRes.err msg →
        (expandFirst store ui n value).result =
          Res.err (Err.uiError msg))) := by
  have hneq : ¬ (value.get? s0 = some '[') := by
    rw [hbrace]
    decide
  constructor
  · intro pre post hdec hp
    have hc : ((value.drop (s0 + 2)).take (e0 - s0 - 4)).contains '|' =
        true := by
      rw [hdec]
      exact contains_pipe_append pre post
    have hsplit : splitOnPipe ((value.drop (s0 + 2)).take (e0 - s0 - 4)) =
        pre :: splitOnPipe post := by
      rw [hdec]
      exact splitOnPipe_first pre post hp
    refine ⟨?_, ?_, ?_, ?_⟩
    · unfold expandFirst
      rw [hf]
      simp only [if_neg hneq, hc]
      cases hui : ui n <;> simp [hsplit]
    · unfold expandFirst
      rw [hf]
      simp only [if_neg hneq, hc]
      cases hui : ui n <;> rfl
    · intro choice hui
      unfold expandFirst
      rw [hf]
      simp only [if_neg hneq, hc, hui]
      simp
    · intro msg hui
      unfold expandFirst
      rw [hf]
      simp only [if_neg hneq, hc, hui]
      simp
  · intro hc
    refine ⟨?_, ?_, ?_, ?_⟩
    · unfold expandFirst
      rw [hf]
      simp only [if_neg hneq, hc]
      cases hui : ui n <;> rfl
    · unfold expandFirst
      rw [hf]
      simp only [if_neg hneq, hc]
      cases hui : ui n <;> rfl
    · intro reply hui
      unfold expandFirst
      rw [hf]
      simp only [if_neg hneq, hc, hui]
      simp
    · intro msg hui
      unfold expandFirst
      rw [hf]
      simp only [if_neg hneq, hc, hui]
      simp

/-- Claim C5 witness: the spec's two examples.  `{{Pick|red|green|blue}}`
issues `Select("Pick", [red, green, blue])` and resolves to the choice;
`Hello {{name}}!` issues `Prompt("name")` and splices the raw reply. -/
theorem expandFirst_prompt_protocol_witness :
    (expandFirst testStore uiGreen 0 pickBody).events =
      [Ev.selectEv ("Pick".data)
        [("red".data), ("green".data), ("blue".data)]] ∧
    (expandFirst testStore uiGreen 0 pickBody).result =
      Res.ok ("green".data) ∧
    (expandFirst testStore uiAda 0 helloBody).events =
      [Ev.promptEv ("name".data)] ∧
    (expandFirst testStore uiAda 0 helloBody).result =
      Res.ok ("Hello Ada!".data) := by
  have h1 := expandFirst_prompt_protocol testStore uiGreen 0 pickBody 0 23
    (by decide) (by decide)
  have h2 := expandFirst_prompt_protocol testStore uiAda 0 helloBody 6 14
    (by decide) (by decide)
  have ha := h1.1 ("Pick".data) ("red|green|blue".data) (by decide)
    (by decide)
  have hb := h2.2 (by decide)
  refine ⟨ha.1.trans (by decide), (ha.2.2.1 ("green".data) rfl).trans
    (by decide), hb.1.trans (by decide), (hb.2.2.1 ("Ada".data) rfl).trans
    (by decide)⟩

/-- The scan reports the leftmost match: no position strictly before the
reported start matches either token alternative. -/
theorem findFrom_leftmost (s : List Char) :
    ∀ i a b, findFrom s i = some (a, b) →
      i ≤ a ∧ ∀ j, j < a - i → matchAt (s.drop j) = none := by
  induction s with
  | nil => intro i a b h; cases h
  | cons c t ih =>
      intro i a b h
      have hred : findFrom (c :: t) i =
          (match matchAt (c :: t) with
           | some k => some (i, i + k)
           | none => findFrom t (i + 1)) := rfl
      cases hm : matchAt (c :: t) with
      | some k =>
          rw [hred, hm] at h
          have ha : a = i := by
            have := Option.some.inj h
            exact (congrArg Prod.fst this).symm
          subst ha
          refine ⟨Nat.le_refl a, ?_⟩
          intro j hj
          exact absurd hj (by omega)
      | none =>
          rw [hred, hm] at h
          have ihh := ih (i + 1) a b h
          refine ⟨by omega, ?_⟩
          intro j hj
          cases j with
          | zero => exact hm
          | succ j2 =>
              show matchAt (t.drop j2) = none
              exact ihh.2 j2 (by omega)

/-- A successful scan-and-substitute step only rewrites the matched span:
the result is the untouched prefix, a replacement, and the untouched
suffix. -/
theorem expandFirst_ok_shape (store : Store) (ui : Nat → UIRes) (n : Nat)
    (value : List Char) (s0 e0 : Nat) (out : List Char)
    (hf : findStringIndex value = some (s0, e0))
    (h : (expandFirst store ui n value).result = Res.ok out) :
    ∃ repl, out = value.take s0 ++ repl ++ value.drop e0 := by
  unfold expandFirst at h
  rw [hf] at h
  by_cases hb : value.get? s0 = some '['
  · simp only [if_pos hb] at h
    cases hl : lookup store ((value.drop s0).take (e0 - s0)) with
    | none => simp [hl] at h
    | some bp =>
        simp only [hl] at h
        exact ⟨bp.Value, (Res.ok.inj h).symm⟩
  · simp only [if_neg hb] at h
    by_cases hc : ((value.drop (s0 + 2)).take (e0 - s0 - 4)).contains '|' =
      true
    · simp only [hc, if_pos] at h
      cases hui : ui n with
      | err msg => simp [hui] at h
      | ok choice =>
          simp only [hui] at h
          exact ⟨choice, (Res.ok.inj h).symm⟩
    · rw [Bool.not_eq_true] at hc
      simp only [hc] at h
      cases hui : ui n with
      | err msg => simp [hui] at h
      | ok reply =>
          simp only [hui] at h
          exact ⟨reply, (Res.ok.inj h).symm⟩

/-- Claim C6: each iteration rewrites exactly the leftmost matched span —
no earlier position matches, and a successful step keeps the prefix and
suffix untouched — so the repeated prompt body `{{x}} and {{x}}` with
replies `1` then `2` asks the provider twice and resolves to `1 and 2`,
with no caching of answers. -/
theorem expandFirst_leftmost_single (value : List Char) (s0 e0 : Nat)
    (hf : findStringIndex value = some (s0, e0)) :
    (∀ i, i < s0 → matchAt (value.drop i) = none) ∧
    (∀ store ui n out, (expandFirst store ui n value).result = Res.ok out →
      ∃ repl, out = value.take s0 ++ repl ++ value.drop e0) ∧
    Expand promptTwiceBM uiOneTwo 3 ("T".data) =
      ⟨some (Res.ok ("1 and 2".data)),
        ⟨⟨[(("T".data), 1)], false⟩,
          [(("T".data), ⟨("T".data),
            ("\x7b\x7bx\x7d\x7d and \x7b\x7bx\x7d\x7d".data), 1⟩)]⟩,
        2, [Ev.promptEv ("x".data), Ev.promptEv ("x".data)]⟩ := by
  refine ⟨?_, ?_, by decide⟩
  · intro i hi
    exact (findFrom_leftmost value 0 s0 e0 hf).2 i (by omega)
  · intro store ui n out h
    exact expandFirst_ok_shape store ui n value s0 e0 out hf h

/-- Claim C6 witness: in `a{{p}}b` the span is `(1, 6)`; position 0 matches
nothing, and a step replying `Ada` yields untouched prefix `a` and suffix
`b` around the replacement. -/
theorem expandFirst_leftmost_single_witness :
    matchAt (("a\x7b\x7bp\x7d\x7db".data).drop 0) = none ∧
    (∃ repl, ("aAdab".data) =
      ("a\x7b\x7bp\x7d\x7db".data).take 1 ++ repl ++
        ("a\x7b\x7bp\x7d\x7db".data).drop 6) := by
  have h := expandFirst_leftmost_single ("a\x7b\x7bp\x7d\x7db".data) 1 6
    (by decide)
  exact ⟨h.1 0 (by decide),
    h.2.1 testStore uiAda 0 ("aAdab".data) (by decide)⟩

/-- Claim C9: provider replies are spliced in unescaped and re-scanned by
the next iterations.  A reply `{{r}}` to the prompt `q` triggers a second,
fresh prompt `r`; a reply `[[y]]` is treated as a reference token and
substituted from the store on the next iteration. -/
theorem replacement_rescanned :
    Expand replayBM uiTokenReply 3 ("T".data) =
      ⟨some (Res.ok ("Z".data)), replayBMAfter, 2,
        [Ev.promptEv ("q".data), Ev.promptEv ("r".data)]⟩ ∧
    Expand replayBM uiRefReply 3 ("T".data) =
      ⟨some (Res.ok ("YBODY".data)), replayBMAfter, 1,
        [Ev.promptEv ("q".data)]⟩ := by
  exact ⟨by decide, by decide⟩

example : findStringIndex ("ab".data) = none := by decide

example : findStringIndex ("x[[B]]y".data) = some (1, 6) := by decide

example : findStringIndex ("a\x7b\x7bp\x7d\x7db".data) = some (1, 6) := by
  decide

example : splitOnPipe ("Pick|red||blue".data) =
    [("Pick".data), ("red".data), [], ("blue".data)] := by decide

end Ezbp
